import Mathlib

/-!
Verification development for the QwenCode Weaver repository.

This file embeds, as executable Lean definitions, the parts of the source that
the specification talks about: the in-browser repository store
(`src/contexts/AppContext.tsx`), the agent flow `runAiAgent` and its action
parsing (`src/hooks/use-settings.ts`, `src/ai/flows/ai-debugger-chat.ts`, and
the action-dispatching variant in `unnamed/part_001`), the model-calling flows
`analyzeCode` and `applyCodeChanges`, and the line-diff algorithm `diffLines`
(`src/components/AppLayout.tsx`).  JavaScript semantics that matter to these
functions (falsy strings, `undefined`/`NaN` arithmetic, out-of-range array
reads) are modelled explicitly.  Theorems about the embedded definitions
follow the definitions.
-/

/- ------------------------------------------------------------------ -/
/- Data model: `src/contexts/AppContext.tsx` and `src/types`          -/
/- ------------------------------------------------------------------ -/

/-- A file held by a repository: `CodeFile { path, content }`. -/
structure CodeFile where
  path : String
  content : String
deriving DecidableEq, Repr

/-- A repository imported into browser storage: `Repository { id, name, files }`. -/
structure Repository where
  id : String
  name : String
  files : List CodeFile
deriving DecidableEq, Repr

/-- A task-log record, as emitted after a successful AI write (`AITask`). -/
structure AITask where
  id : String
  repositoryId : String
  taskText : String
  status : String
  createdAt : String
  originalCode : String
  modifiedCode : String
deriving DecidableEq, Repr

/-- `updateFileContent` from `src/contexts/AppContext.tsx` (lines 101-115):
`setRepositories(prev => prev.map(repo => repo.id === repoId ? {...repo,
files: repo.files.map(file => file.path === filePath ? {...file, content:
newContent} : file)} : repo))`.  The JS function returns `void` and never
throws; here it is the pure state transformer on the repository list. -/
def updateFileContent (repoId filePath newContent : String)
    (repos : List Repository) : List Repository :=
  repos.map fun repo =>
    if repo.id = repoId then
      { repo with
        files := repo.files.map fun file =>
          if file.path = filePath then { file with content := newContent }
          else file }
    else repo

/-- `addTask` from `src/contexts/AppContext.tsx` (lines 117-119):
`setTasks(prev => [task, ...prev].slice(0, 100))`. -/
def addTask (task : AITask) (prev : List AITask) : List AITask :=
  (task :: prev).take 100

/- ------------------------------------------------------------------ -/
/- JSON values and `JSON.parse` (platform builtin used by the flows)  -/
/- ------------------------------------------------------------------ -/

/-- A parsed JSON value, as produced by the JavaScript `JSON.parse` builtin
that the agent flows call on model output.  Numbers are kept as their source
lexeme; the program never does arithmetic on parsed numbers. -/
inductive JsonVal where
  | jnull : JsonVal
  | jbool : Bool → JsonVal
  | jnum : String → JsonVal
  | jstr : String → JsonVal
  | jarr : List JsonVal → JsonVal
  | jobj : List (String × JsonVal) → JsonVal
deriving Repr

/-- JSON insignificant whitespace. -/
def isJsonWs (c : Char) : Bool := c = ' ' ∨ c = '\t' ∨ c = '\n' ∨ c = '\r'

/-- Skip JSON whitespace. -/
def skipWs : List Char → List Char
  | [] => []
  | c :: cs => if isJsonWs c then skipWs cs else c :: cs

/-- Hexadecimal digit value, for `\uXXXX` escapes. -/
def hexVal (c : Char) : Option Nat :=
  if '0' ≤ c ∧ c ≤ '9' then some (c.toNat - '0'.toNat)
  else if 'a' ≤ c ∧ c ≤ 'f' then some (c.toNat - 'a'.toNat + 10)
  else if 'A' ≤ c ∧ c ≤ 'F' then some (c.toNat - 'A'.toNat + 10)
  else none

/-- Body of a JSON string literal (after the opening quote): returns the
decoded characters and the remaining input after the closing quote. -/
def parseStrChars : Nat → List Char → Option (List Char × List Char)
  | 0, _ => none
  | _ + 1, [] => none
  | fuel + 1, c :: cs =>
    if c = '"' then some ([], cs)
    else if c = '\\' then
      match cs with
      | [] => none
      | e :: cs2 =>
        let dec : Option (Char × List Char) :=
          if e = '"' then some ('"', cs2)
          else if e = '\\' then some ('\\', cs2)
          else if e = '/' then some ('/', cs2)
          else if e = 'b' then some ('\x08', cs2)
          else if e = 'f' then some ('\x0c', cs2)
          else if e = 'n' then some ('\n', cs2)
          else if e = 'r' then some ('\r', cs2)
          else if e = 't' then some ('\t', cs2)
          else if e = 'u' then
            match cs2 with
            | h1 :: h2 :: h3 :: h4 :: rest =>
              match hexVal h1, hexVal h2, hexVal h3, hexVal h4 with
              | some a, some b, some c3, some d =>
                some (Char.ofNat (((a * 16 + b) * 16 + c3) * 16 + d), rest)
              | _, _, _, _ => none
            | _ => none
          else none
        match dec with
        | some (ch, rest) =>
          match parseStrChars fuel rest with
          | some (out, rem) => some (ch :: out, rem)
          | none => none
        | none => none
    else if c.toNat < 32 then none
    else
      match parseStrChars fuel cs with
      | some (out, rem) => some (c :: out, rem)
      | none => none

/-- Is `c` an ASCII digit? -/
def isDigitC (c : Char) : Bool := '0' ≤ c ∧ c ≤ '9'

/-- Take a maximal run of digits. -/
def takeDigits : List Char → List Char × List Char
  | [] => ([], [])
  | c :: cs =>
    if isDigitC c then
      let (ds, r) := takeDigits cs
      (c :: ds, r)
    else ([], c :: cs)

/-- Optional JSON fraction part (`.` followed by at least one digit). -/
def lexFracPart : List Char → Option (List Char × List Char)
  | '.' :: r =>
    match r with
    | d :: _ =>
      if isDigitC d then
        let (ds, r2) := takeDigits r
        some ('.' :: ds, r2)
      else none
    | [] => none
  | cs => some ([], cs)

/-- Optional JSON exponent part (`e`/`E`, optional sign, digits). -/
def lexExpPart : List Char → Option (List Char × List Char)
  | [] => some ([], [])
  | c :: r =>
    if c = 'e' ∨ c = 'E' then
      let (sgn, r1) : List Char × List Char :=
        match r with
        | s :: r2 => if s = '+' ∨ s = '-' then ([s], r2) else ([], s :: r2)
        | [] => ([], [])
      match r1 with
      | d :: _ =>
        if isDigitC d then
          let (ds, r2) := takeDigits r1
          some (c :: (sgn ++ ds), r2)
        else none
      | [] => none
    else some ([], c :: r)

/-- Lex one JSON number (strict grammar), returning its lexeme. -/
def lexNumber (cs : List Char) : Option (List Char × List Char) :=
  let (neg, cs1) : List Char × List Char :=
    match cs with
    | '-' :: r => (['-'], r)
    | _ => ([], cs)
  match cs1 with
  | [] => none
  | c :: r =>
    if c = '0' then
      match lexFracPart r with
      | some (fp, r2) =>
        match lexExpPart r2 with
        | some (ep, r3) => some (neg ++ [c] ++ fp ++ ep, r3)
        | none => none
      | none => none
    else if isDigitC c then
      let (ds, r1) := takeDigits r
      match lexFracPart r1 with
      | some (fp, r2) =>
        match lexExpPart r2 with
        | some (ep, r3) => some (neg ++ [c] ++ ds ++ fp ++ ep, r3)
        | none => none
      | none => none
    else none

mutual

/-- Parse one JSON value (recursive descent; fuel bounds nesting). -/
def parseVal : Nat → List Char → Option (JsonVal × List Char)
  | 0, _ => none
  | fuel + 1, cs =>
    match skipWs cs with
    | [] => none
    | c :: r =>
      if c = 'n' then
        match r with
        | 'u' :: 'l' :: 'l' :: r2 => some (JsonVal.jnull, r2)
        | _ => none
      else if c = 't' then
        match r with
        | 'r' :: 'u' :: 'e' :: r2 => some (JsonVal.jbool true, r2)
        | _ => none
      else if c = 'f' then
        match r with
        | 'a' :: 'l' :: 's' :: 'e' :: r2 => some (JsonVal.jbool false, r2)
        | _ => none
      else if c = '"' then
        match parseStrChars (r.length + 1) r with
        | some (out, rem) => some (JsonVal.jstr (String.mk out), rem)
        | none => none
      else if c = '[' then
        match skipWs r with
        | ']' :: r2 => some (JsonVal.jarr [], r2)
        | _ =>
          match parseArrItems fuel r with
          | some (vs, r2) => some (JsonVal.jarr vs, r2)
          | none => none
      else if c = '\x7b' then
        match skipWs r with
        | '\x7d' :: r2 => some (JsonVal.jobj [], r2)
        | _ =>
          match parseObjItems fuel r with
          | some (fs, r2) => some (JsonVal.jobj fs, r2)
          | none => none
      else
        match lexNumber (c :: r) with
        | some (lexeme, r2) => some (JsonVal.jnum (String.mk lexeme), r2)
        | none => none

/-- Parse one or more comma-separated array items up to `]`. -/
def parseArrItems : Nat → List Char → Option (List JsonVal × List Char)
  | 0, _ => none
  | fuel + 1, cs =>
    match parseVal fuel cs with
    | none => none
    | some (v, r) =>
      match skipWs r with
      | ',' :: r2 =>
        match parseArrItems fuel r2 with
        | some (vs, r3) => some (v :: vs, r3)
        | none => none
      | ']' :: r2 => some ([v], r2)
      | _ => none

/-- Parse one or more `"key": value` object members up to the closing brace. -/
def parseObjItems : Nat → List Char → Option (List (String × JsonVal) × List Char)
  | 0, _ => none
  | fuel + 1, cs =>
    match skipWs cs with
    | '"' :: r =>
      match parseStrChars (r.length + 1) r with
      | some (key, r1) =>
        match skipWs r1 with
        | ':' :: r2 =>
          match parseVal fuel r2 with
          | none => none
          | some (v, r3) =>
            match skipWs r3 with
            | ',' :: r4 =>
              match parseObjItems fuel r4 with
              | some (fs, r5) => some ((String.mk key, v) :: fs, r5)
              | none => none
            | '\x7d' :: r4 => some ([(String.mk key, v)], r4)
            | _ => none
        | _ => none
      | none => none
    | _ => none

end

/-- `JSON.parse` on a character list: one value, then only trailing
whitespace. -/
def jsonParse (cs : List Char) : Option JsonVal :=
  match parseVal (2 * cs.length + 4) cs with
  | some (v, rest) => if skipWs rest = [] then some v else none
  | none => none

/- ------------------------------------------------------------------ -/
/- Agent actions and model-output parsing                             -/
/- ------------------------------------------------------------------ -/

/-- Last-wins field lookup on a parsed JSON object (JS object semantics:
`JSON.parse` keeps the last duplicate key); on non-objects every field read
yields `undefined` (`none`). -/
def getField (v : JsonVal) (key : String) : Option JsonVal :=
  match v with
  | JsonVal.jobj fields =>
    fields.foldl (fun acc kv => if kv.1 = key then some kv.2 else acc) none
  | _ => none

/-- Read a field only if it is a JSON string (the only shape the program
consumes downstream). -/
def getStrField (v : JsonVal) (key : String) : Option String :=
  match getField v key with
  | some (JsonVal.jstr s) => some s
  | _ => none

/-- The action object the model is asked to produce
(`{action, path?, content?, prompt?, selectedContent?, message?}`), as read
off a parsed JSON value by the agent flows. -/
structure AgentActionObj where
  action : String
  path : Option String := none
  content : Option String := none
  editInstr : Option String := none
  selectedContent : Option String := none
  message : Option String := none
deriving DecidableEq, Repr

/-- Project a parsed JSON value to an action object, requiring
`typeof v.action === 'string'` exactly as `runAiAgent` in
`src/hooks/use-settings.ts` does (lines 259-261); the `prompt` field of the
source object is stored in `editInstr`. -/
def agentObjOfJson (v : JsonVal) : Option AgentActionObj :=
  match getField v "action" with
  | some (JsonVal.jstr a) =>
    some { action := a, path := getStrField v "path",
           content := getStrField v "content",
           editInstr := getStrField v "prompt",
           selectedContent := getStrField v "selectedContent",
           message := getStrField v "message" }
  | _ => none

/-- Index of the first `U+007B` left curly bracket, if any. -/
def idxOfFirstOpenBrace (cs : List Char) : Option Nat :=
  cs.findIdx? (fun c => c = '\x7b')

/-- Index of the last `U+007D` right curly bracket, if any. -/
def idxOfLastCloseBrace (cs : List Char) : Option Nat :=
  match cs.reverse.findIdx? (fun c => c = '\x7d') with
  | some k => some (cs.length - 1 - k)
  | none => none

/-- `rawResponseContent.match(/\{[\s\S]*\}/)` from `runAiAgent`
(`src/hooks/use-settings.ts` line 251): the greedy regex matches from the
first left curly bracket to the last right curly bracket after it, or fails
if no such pair exists. -/
def extractJsonSpan (cs : List Char) : Option (List Char) :=
  match idxOfFirstOpenBrace cs, idxOfLastCloseBrace cs with
  | some i, some j => if i < j then some ((cs.drop i).take (j - i + 1)) else none
  | _, _ => none

/-- The parse pipeline of `runAiAgent` in `src/hooks/use-settings.ts`
(lines 249-262): extract the brace-delimited span, `JSON.parse` it, and
require a string `action` field.  `none` means the try-block throws (no JSON
object found / invalid JSON / missing `action`). -/
def agentActionFromText (raw : String) : Option AgentActionObj :=
  match extractJsonSpan raw.data with
  | none => none
  | some span =>
    match jsonParse span with
    | none => none
    | some v => agentObjOfJson v

/-- Leading text of the catch-branch message of `runAiAgent`
(`src/hooks/use-settings.ts` lines 266-269); the apostrophe of the source
text is spelled via `Char.ofNat 39`. -/
def parseErrHead : String :=
  "I encountered an internal error and could not understand the model"
    ++ String.singleton (Char.ofNat 39)
    ++ "s response. The raw response was: \n\n```\n"

/-- Trailing text of the catch-branch message. -/
def parseErrTail : String := "\n```"

/-- The fallback action returned by `runAiAgent` when the model text cannot
be parsed as an action: a `finish` action quoting the raw model response
(`src/hooks/use-settings.ts` lines 263-270). -/
def finishParseErrAction (raw : String) : AgentActionObj :=
  { action := "finish", message := some (parseErrHead ++ raw ++ parseErrTail) }

/-- Response handling of `runAiAgent` on a successfully fetched model text:
the parsed action if the pipeline succeeds, otherwise the parse-error
`finish` action. -/
def handleModelText (raw : String) : AgentActionObj :=
  match agentActionFromText raw with
  | some a => a
  | none => finishParseErrAction raw

/- ------------------------------------------------------------------ -/
/- Model-calling flows: configuration checks and response handling    -/
/- ------------------------------------------------------------------ -/

/-- Outcome of the one `fetch` a flow makes: either the promise chain threw
(fetch rejected, or `response.json()` failed on a non-JSON body), or a
response arrived with `ok`/`status` and the parsed body's `error` and
`response` string fields (absent fields are `none`). -/
inductive FetchOutcome where
  | reject : String → FetchOutcome
  | resp : Bool → Nat → Option String → Option String → FetchOutcome

/-- `"Ollama URL is not configured. Please set it in the Settings page."` -/
def cfgUrlMsg : String :=
  "Ollama URL is not configured. Please set it in the Settings page."

/-- `"Ollama Model is not configured. Please set it in the Settings page."` -/
def cfgModelMsg : String :=
  "Ollama Model is not configured. Please set it in the Settings page."

/-- The outer catch of `runAiAgent`/`analyzeCode` rethrows with this wrapper
(`Failed to get analysis from AI model: ...`). -/
def wrapAgentErr (m : String) : String :=
  "Failed to get analysis from AI model: " ++ m

/-- The outer catch of `applyCodeChanges` rethrows with this wrapper. -/
def wrapApplyErr (m : String) : String :=
  "Failed to apply code changes with AI model: " ++ m

/-- A rendering of `JSON.stringify(data)` for the error-response body, used
only inside upstream-error messages (cosmetic; the claims do not depend on
its exact shape). -/
def stringifyBody (errField respField : Option String) : String :=
  "\x7b"
    ++ (match errField with
        | some e => "\"error\":\"" ++ e ++ "\""
        | none => "")
    ++ (match respField with
        | some r => ",\"response\":\"" ++ r ++ "\""
        | none => "")
    ++ "\x7d"

/-- `data.error || JSON.stringify(data)` (JS `||`: an empty string is falsy). -/
def jsErrText (errField respField : Option String) : String :=
  match errField with
  | some e => if e = "" then stringifyBody errField respField else e
  | none => stringifyBody errField respField

/-- `runAiAgent` from `src/hooks/use-settings.ts` (lines 206-279): check the
configuration, make one network call, fail on a rejected call or a non-2xx
status, otherwise run the action-parse pipeline on `data.response || ''`,
falling back to the parse-error `finish` action.  The second component counts
network requests issued; the configuration checks run before any request. -/
def runAiAgent (ollamaUrl ollamaModel : String) (net : FetchOutcome) :
    Except String AgentActionObj × Nat :=
  if ollamaUrl = "" then (Except.error (wrapAgentErr cfgUrlMsg), 0)
  else if ollamaModel = "" then (Except.error (wrapAgentErr cfgModelMsg), 0)
  else
    match net with
    | FetchOutcome.reject m => (Except.error (wrapAgentErr m), 1)
    | FetchOutcome.resp ok status errField respField =>
      if ok then
        (Except.ok (handleModelText (respField.getD "")), 1)
      else
        (Except.error (wrapAgentErr ("Ollama server responded with status "
          ++ toString status ++ ": " ++ jsErrText errField respField)), 1)

/-- `analyzeCode` from `src/ai/flows/ai-debugger-chat.ts` (lines 27-95):
configuration checks, one network call, error on non-2xx (quoting the body),
otherwise return `data.response` (which may be absent) as the analysis
result.  Second component counts network requests. -/
def analyzeCode (ollamaUrl ollamaModel : String) (net : FetchOutcome) :
    Except String (Option String) × Nat :=
  if ollamaUrl = "" then (Except.error (wrapAgentErr cfgUrlMsg), 0)
  else if ollamaModel = "" then (Except.error (wrapAgentErr cfgModelMsg), 0)
  else
    match net with
    | FetchOutcome.reject m => (Except.error (wrapAgentErr m), 1)
    | FetchOutcome.resp ok status errField respField =>
      if ok then (Except.ok respField, 1)
      else
        (Except.error (wrapAgentErr ("Ollama server responded with status "
          ++ toString status ++ ": " ++ stringifyBody errField respField)), 1)

/-- Index (as a JS number) of the first `'\n'`, or `-1`: `indexOf('\n')`. -/
def idxOfFirstNl (cs : List Char) : Int :=
  match cs.findIdx? (fun c => c = '\n') with
  | some i => (i : Int)
  | none => -1

/-- Index of the last `'\n'`, or `-1`: `lastIndexOf('\n')`. -/
def idxOfLastNl (cs : List Char) : Int :=
  match cs.reverse.findIdx? (fun c => c = '\n') with
  | some k => (cs.length : Int) - 1 - (k : Int)
  | none => -1

/-- JS `String.prototype.substring(a, b)`: clamp both indices to
`[0, length]`, swap if out of order, and take the slice. -/
def jsSubstring (cs : List Char) (a b : Int) : List Char :=
  let n : Int := cs.length
  let clampIdx : Int → Int := fun x => if x < 0 then 0 else if x > n then n else x
  let lo := min (clampIdx a) (clampIdx b)
  let hi := max (clampIdx a) (clampIdx b)
  (cs.drop lo.toNat).take (hi - lo).toNat

/-- Message of the `TypeError` thrown by `data.response.trim()` when the
body has no `response` field (modelled; exact JS engine wording varies). -/
def trimUndefinedMsg : String :=
  "Cannot read properties of undefined (reading trim)"

/-- `applyCodeChanges` from `src/ai/flows/apply-code-changes.ts` (lines
27-89): configuration checks (lines 44-50) before the single network call;
non-2xx becomes an error quoting status and body; otherwise the response
text is trimmed and a ``` fence pair is stripped.  Second component counts
network requests. -/
def applyCodeChanges (ollamaUrl ollamaModel : String) (net : FetchOutcome) :
    Except String String × Nat :=
  if ollamaUrl = "" then (Except.error (wrapApplyErr cfgUrlMsg), 0)
  else if ollamaModel = "" then (Except.error (wrapApplyErr cfgModelMsg), 0)
  else
    match net with
    | FetchOutcome.reject m => (Except.error (wrapApplyErr m), 1)
    | FetchOutcome.resp ok status errField respField =>
      if ok then
        match respField with
        | none => (Except.error (wrapApplyErr trimUndefinedMsg), 1)
        | some s =>
          let t := s.trim
          let t2 :=
            if t.startsWith "```" && t.endsWith "```" then
              (String.mk (jsSubstring t.data (idxOfFirstNl t.data + 1)
                (idxOfLastNl t.data))).trim
            else t
          (Except.ok t2, 1)
      else
        (Except.error (wrapApplyErr ("Ollama server responded with status "
          ++ toString status ++ ": " ++ stringifyBody errField respField)), 1)

/- ------------------------------------------------------------------ -/
/- Action dispatch of `runAiAgent` in `unnamed/part_001`              -/
/- ------------------------------------------------------------------ -/

/-- Strip a leading `./` exactly as `unnamed/part_001` does:
`path.startsWith('./') ? path.substring(2) : path`. -/
def normalizeDotSlash (p : String) : String :=
  match p.data with
  | '.' :: '/' :: rest => String.mk rest
  | _ => p

/-- The `finish` error reply for a `readFile` of an unknown path
(`unnamed/part_001` line 153). -/
def readFileNotFoundAction (np : String) : AgentActionObj :=
  { action := "finish",
    message := some ("Error: File `" ++ np ++ "` not found in the repository.") }

/-- The `finish` error reply for a `naturalLanguageWriteFile` of an unknown
path (`unnamed/part_001` line 170). -/
def nlWriteNotFoundAction (np : String) : AgentActionObj :=
  { action := "finish",
    message := some ("Error: Cannot perform naturalLanguageWriteFile: File `"
      ++ np ++ "` not found.") }

/-- The `finish` reply for an unrecognized action (`unnamed/part_001`
line 197). -/
def unknownActionFinish : AgentActionObj :=
  { action := "finish",
    message := some "The AI returned an unknown action. Please try again or ask for clarification." }

/-- JS truthiness of the `find` result (`const file = fileList.find(...)`
followed by `if (!file)`): `undefined` (no match) is falsy, and — the found
value being the path string itself — a found empty string is falsy too. -/
def jsTruthyStr : Option String → Bool
  | none => false
  | some s => s ≠ ""

/-- The action-executing tail of `runAiAgent` in `unnamed/part_001`
(lines 148-198).  `readFile` and `naturalLanguageWriteFile` normalize a
leading `./`, look the path up with
`const file = fileList.find(f => f === normalizedPath)` and reply with an
explicit `finish` error when `!file` — i.e. when no entry matches, or when
the matching entry is the falsy empty string; a truthy found path, a
`writeFile`, or a `finish` is passed back unchanged for the client to
execute; an unrecognized action becomes an explanatory `finish`.
`Except.error` models the `TypeError` thrown when `path` is absent
(`path.startsWith` on `undefined`). -/
def dispatchAgentAction (fileList : List String) (a : AgentActionObj) :
    Except String AgentActionObj :=
  if a.action = "readFile" then
    match a.path with
    | none => Except.error "TypeError: path is undefined"
    | some p =>
      let np := normalizeDotSlash p
      if jsTruthyStr (fileList.find? (fun f => f = np)) then Except.ok a
      else Except.ok (readFileNotFoundAction np)
  else if a.action = "writeFile" then Except.ok a
  else if a.action = "naturalLanguageWriteFile" then
    match a.path with
    | none => Except.error "TypeError: path is undefined"
    | some p =>
      let np := normalizeDotSlash p
      if jsTruthyStr (fileList.find? (fun f => f = np)) then Except.ok a
      else Except.ok (nlWriteNotFoundAction np)
  else if a.action = "finish" then Except.ok a
  else Except.ok unknownActionFinish

/- ------------------------------------------------------------------ -/
/- Spec-modelled agent-loop driver                                    -/
/- ------------------------------------------------------------------ -/

/-- Modelled from the spec: the client-side loop driver of §4.1 (the code
that repeatedly calls the model, executes the parsed action against the
in-memory file set, appends an observation, and enforces the hard turn cap)
is not present under `src/` — the server flows there produce single actions
and delegate execution to UI code that is missing from the snapshot.  This
executor applies one parsed action to the file list: `readFile` observes
without mutating, `writeFile`/`naturalLanguageWriteFile` replace the target
file's content (via the same per-file replacement as `updateFileContent`)
and report "not found" without mutating when the path is unknown, and
`finish` only carries its message. -/
def execAgentAction (a : AgentActionObj) (files : List CodeFile) :
    List CodeFile × String :=
  if a.action = "readFile" then
    let p := normalizeDotSlash (a.path.getD "")
    match files.find? (fun f => f.path = p) with
    | some f => (files, "Observation: content of " ++ p ++ ":\n" ++ f.content)
    | none => (files, "Observation: Error: File " ++ p ++ " not found.")
  else if a.action = "writeFile" ∨ a.action = "naturalLanguageWriteFile" then
    let p := normalizeDotSlash (a.path.getD "")
    if files.any (fun f => f.path = p) then
      (files.map fun f =>
        if f.path = p then { f with content := a.content.getD "" } else f,
       "Observation: wrote " ++ p ++ ".")
    else (files, "Observation: Error: File " ++ p ++ " not found.")
  else (files, a.message.getD "")

/-- Modelled from the spec: terminal outcome of one agent-loop run
(`FINISHED` or `ERROR`, §4.1). -/
inductive LoopOutcome where
  | finished : String → LoopOutcome
  | errorOut : String → LoopOutcome
deriving DecidableEq, Repr

/-- Modelled from the spec: the "took too many steps" message of the hard
turn cap (§4.1). -/
def tooManyStepsMsg : String := "The agent took too many steps."

/-- Modelled from the spec: the "unknown action" error message (§4.1). -/
def unknownActionMsg : String := "The AI returned an unknown action."

/-- Modelled from the spec: the design value of the hard turn cap
("e.g., 10 iterations", §4.1). -/
def designMaxTurns : Nat := 10

/-- Modelled from the spec: the agent control loop of §4.1.  Each iteration
asks the model for one action given the history; `finish` ends the loop,
a recognized file action is executed and its observation appended, an
unrecognized action ends in `ERROR`, and when the turn budget is exhausted
the loop force-exits into `ERROR` with the "took too many steps" message.
Returns the outcome, the number of iterations used, and the final files. -/
def runAgentLoop (model : List String → AgentActionObj)
    (remaining : Nat) (files : List CodeFile) (history : List String)
    (used : Nat) : LoopOutcome × Nat × List CodeFile :=
  match remaining with
  | 0 => (LoopOutcome.errorOut tooManyStepsMsg, used, files)
  | n + 1 =>
    let a := model history
    if a.action = "finish" then
      (LoopOutcome.finished (a.message.getD ""), used + 1, files)
    else if a.action = "readFile" ∨ a.action = "writeFile"
        ∨ a.action = "naturalLanguageWriteFile" then
      runAgentLoop model n (execAgentAction a files).1
        (history ++ [(execAgentAction a files).2]) (used + 1)
    else (LoopOutcome.errorOut unknownActionMsg, used + 1, files)

/- ------------------------------------------------------------------ -/
/- Line diff: `diffLines` from `src/components/AppLayout.tsx`         -/
/- ------------------------------------------------------------------ -/

/-- One entry of the diff result: `{value, added?, removed?}`; `value` is
`none` when the source indexes a line array out of range (JS `undefined`). -/
structure DiffEntry where
  value : Option String
  added : Bool := false
  removed : Bool := false
deriving DecidableEq, Repr

/-- JS `split('\n')` on the character list: every newline separates, empty
segments kept (`"" → [""]`, `"a\n" → ["a",""]`). -/
def splitNlChars (cs : List Char) : List (List Char) :=
  cs.foldr
    (fun c acc =>
      if c = '\n' then [] :: acc
      else
        match acc with
        | h :: t => (c :: h) :: t
        | [] => [[c]])
    [[]]

/-- JS `s.split('\n')` as strings. -/
def splitNl (s : String) : List String :=
  (splitNlChars s.data).map fun l => String.mk l

/-- A JS number as `diffLines` uses them: a definite integer, or
`undefined`/`NaN` (`none`) — the two behave identically in every operation
the function performs (all comparisons false, arithmetic stays undefined). -/
abbrev JNum := Option Int

/-- The `v`/`newV` arrays: JS arrays read at arbitrary integer indices,
unset slots reading as `undefined`. -/
abbrev JArr := Int → Option Int

/-- Read `arr[i]` where the index is itself a JS number. -/
def jread (arr : JArr) (i : JNum) : JNum :=
  match i with
  | some n => arr n
  | none => none

/-- `arr[i] = x` (every write in the source uses a definite index). -/
def jwrite (arr : JArr) (i : Int) (x : JNum) : JArr :=
  fun j => if j = i then x else arr j

/-- JS `<` on numbers: false when either side is `undefined`/`NaN`. -/
def jlt (a b : JNum) : Bool :=
  match a, b with
  | some x, some y => decide (x < y)
  | _, _ => false

/-- JS `>=` against a definite right-hand side: false on `undefined`/`NaN`. -/
def jgeI (a : JNum) (n : Int) : Bool :=
  match a with
  | some x => decide (n ≤ x)
  | none => false

/-- JS `a + 1`. -/
def jadd1 (a : JNum) : JNum := a.map (· + 1)

/-- JS `a - 1`. -/
def jsub1 (a : JNum) : JNum := a.map (· - 1)

/-- JS `a - b`. -/
def jsub (a b : JNum) : JNum :=
  match a, b with
  | some x, some y => some (x - y)
  | _, _ => none

/-- `lines[i]` for a JS number index: `undefined` when the index is `NaN`,
negative, or past the end. -/
def jline (lines : List String) (i : JNum) : Option String :=
  match i with
  | some n => if 0 ≤ n then lines.get? n.toNat else none
  | none => none

/-- The inner `while (x < N && y < M && originalLines[x] === modifiedLines[y])`
snake advance of the forward pass, on definite integer coordinates.  The
fuel only needs to cover the iteration count: each pass requires `x < N` and
increments `x`, so `(N - x).toNat + 1` at the call site is always enough and
the fuel case is never the reason the loop stops. -/
def snakeLoop : Nat → List String → List String → Int → Int → Int → Int → Int × Int
  | 0, _, _, _, _, x, y => (x, y)
  | fuel + 1, orig, mo, N, M, x, y =>
    if x < N ∧ y < M ∧ jline orig (some x) = jline mo (some y) then
      snakeLoop fuel orig mo N M (x + 1) (y + 1)
    else (x, y)

/-- The snake advance as invoked on JS numbers: no advance when either
coordinate is `undefined` (the `while` condition is immediately false). -/
def snakeJ (orig mo : List String) (N M : Int) : JNum → JNum → JNum × JNum
  | some a, some b =>
    let p := snakeLoop ((N - a).toNat + 1) orig mo N M a b
    (some p.1, some p.2)
  | x, y => (x, y)

/-- Selection of `x` in the forward pass: `k === -d || (k !== d &&
v[index-1] < v[index+1])` takes `v[index+1]` (down-move), otherwise
`v[index-1] + 1` (right-move). -/
def forwardX (v : JArr) (maxIdx d k : Int) : JNum :=
  let index := maxIdx + k
  if k = -d ∨ (k ≠ d ∧ jlt (v (index - 1)) (v (index + 1))) then v (index + 1)
  else jadd1 (v (index - 1))

/-- The diagonals `k = -d, -d+2, ..., d` of one forward iteration. -/
def kList (d : Int) : List Int :=
  (List.range (d.toNat + 1)).map fun j => -d + 2 * (j : Int)

/-- One `d`-iteration's inner `k` loop: threads `newV` (reads still go to the
previous iteration's `v`, as in the source) and stops with `Sum.inr` when
`x >= N && y >= M` — the assignment `newV[index] = x` happens before that
check, exactly as in the source. -/
def kLoop (orig mo : List String) (N M maxIdx d : Int) (v : JArr) :
    List Int → JArr → JArr ⊕ JArr
  | [], newV => Sum.inl newV
  | k :: ks, newV =>
    let x0 := forwardX v maxIdx d k
    let y0 := jsub x0 (some k)
    let p := snakeJ orig mo N M x0 y0
    let newV2 := jwrite newV (maxIdx + k) p.1
    if jgeI p.1 N && jgeI p.2 M then Sum.inr newV2
    else kLoop orig mo N M maxIdx d v ks newV2

/-- The outer `for (let d = 0; d <= max; d++)` loop: each completed iteration
pushes `newV` on the trace and splices it into `v`; on termination the
current `newV` is pushed and the final `d`, the trace and the then-current
`v` are returned.  `none` models the loop running to completion, whereupon
the source returns `[]`. -/
def dLoop (orig mo : List String) (N M maxIdx : Int) :
    Nat → Int → JArr → List JArr → Option (Int × List JArr × JArr)
  | 0, _, _, _ => none
  | fuel + 1, d, v, trace =>
    match kLoop orig mo N M maxIdx d v (kList d) v with
    | Sum.inr newV2 => some (d, trace ++ [newV2], v)
    | Sum.inl newV2 =>
      dLoop orig mo N M maxIdx fuel (d + 1) newV2 (trace ++ [newV2])

/-- The backtracking `while (px > prevX && py > prevY)` on definite numbers:
`unshift`s unchanged entries, so the lines end up in source order in front of
`res`.  Each pass requires `pa < a` and decrements `a`, so the fuel
`(a - pa).toNat + 1` supplied at the call site is always enough. -/
def btSnake : Nat → List String → Int → Int → Int → Int → List DiffEntry →
    Int × Int × List DiffEntry
  | 0, _, _, _, a, b, res => (a, b, res)
  | fuel + 1, orig, pa, pb, a, b, res =>
    if pa < a ∧ pb < b then
      btSnake fuel orig pa pb (a - 1) (b - 1)
        ({ value := jline orig (some (a - 1)) } :: res)
    else (a, b, res)

/-- The backtracking snake on JS numbers: the `while` condition is false
outright when any of the four numbers is `undefined`/`NaN`. -/
def btSnakeJ (orig : List String) (prevX prevY px py : JNum)
    (res : List DiffEntry) : JNum × JNum × List DiffEntry :=
  match px, py, prevX, prevY with
  | some a, some b, some pa, some pb =>
    let t := btSnake ((a - pa).toNat + 1) orig pa pb a b res
    (some t.1, some t.2.1, t.2.2)
  | x, y, _, _ => (x, y, res)

/-- One iteration of the backtracking `for (let i = trace.length - 1; i >= 0;
i--)` loop.  Faithful quirks of the source: the predecessor choice reuses the
final `d` (not the step index), `trace[i-1] || v` falls back to `v` at
`i = 0`, JS `k !== d` is true when `k` is `NaN`, and the removed/added
entries index the line arrays with possibly negative positions. -/
def btStep (orig mo : List String) (maxIdx d : Int) (trace : List JArr)
    (v : JArr) (i : Nat) (px py : JNum) (res : List DiffEntry) :
    JNum × JNum × List DiffEntry :=
  let pv := if i = 0 then v else trace.getD (i - 1) v
  let k := jsub px py
  let pIdxSub : JNum := match k with
    | some kk => some (maxIdx + kk - 1)
    | none => none
  let pIdxAdd : JNum := match k with
    | some kk => some (maxIdx + kk + 1)
    | none => none
  let cond := k = some (-d) ∨ (k ≠ some d ∧ jlt (jread pv pIdxSub) (jread pv pIdxAdd))
  let prevX := if cond then jread pv pIdxAdd else jadd1 (jread pv pIdxSub)
  let prevY := jsub prevX k
  let t := btSnakeJ orig prevX prevY px py res
  let px2 := t.1
  let py2 := t.2.1
  let res2 := t.2.2
  if 0 < i then
    if jlt prevX px2 then
      (jsub1 px2, py2, { value := jline orig (jsub1 px2), removed := true } :: res2)
    else
      (px2, jsub1 py2, { value := jline mo (jsub1 py2), added := true } :: res2)
  else (px2, py2, res2)

/-- The whole backtracking loop, `i` descending from `trace.length - 1`
to `0`. -/
def btLoop (orig mo : List String) (maxIdx d : Int) (trace : List JArr)
    (v : JArr) : List Nat → JNum × JNum × List DiffEntry →
      JNum × JNum × List DiffEntry
  | [], st => st
  | i :: rest, st =>
    btLoop orig mo maxIdx d trace v rest
      (btStep orig mo maxIdx d trace v i st.1 st.2.1 st.2.2)

/-- `diffLines` from `src/components/AppLayout.tsx` (lines 762-828): the
hand-written Myers-style forward pass with its ad-hoc backtracking, embedded
with JS array and number semantics (the source's `max` variable is `maxIdx`
here).  Returns the display-ordered diff entries. -/
def initV (maxIdx : Int) : JArr :=
  fun i => if i = maxIdx + 1 then some 0 else none

def diffLines (original modified : String) : List DiffEntry :=
  let originalLines := splitNl original
  let modifiedLines := splitNl modified
  let N : Int := originalLines.length
  let M : Int := modifiedLines.length
  let maxIdx : Int := N + M
  let v0 : JArr := initV maxIdx
  match dLoop originalLines modifiedLines N M maxIdx (maxIdx.toNat + 1) 0 v0 [] with
  | some (d, trace, v) =>
    (btLoop originalLines modifiedLines maxIdx d trace v
      (List.range trace.length).reverse (some N, some M, [])).2.2
  | none => []

/- ------------------------------------------------------------------ -/
/- Theorems                                                           -/
/- ------------------------------------------------------------------ -/

/-- C8: Every `addTask` call prepends the new record and truncates to the 100
most recent entries: the result is literally the new task consed onto the
first 99 old entries (so existing entries keep their order and values, the
oldest is evicted once the cap is reached), and the log length never exceeds
100 after any call, hence after any sequence of calls from any starting list. -/
theorem addTask_prepends_and_caps (task : AITask) (prev : List AITask) :
    addTask task prev = task :: prev.take 99 ∧ (addTask task prev).length ≤ 100 := by
  constructor
  · simp [addTask]
  · simp [addTask]

/-- C9: when the repository id picks out exactly one repository (index `i`)
and the file path picks out exactly one of its files (index `j`), a write
replaces exactly that file's content with `newContent` and leaves everything
else intact: the new state is the old one with only position `j` of
repository `i`'s file list replaced (`List.set` keeps all other list
positions, all other fields, and all other repositories unchanged). -/
theorem updateFileContent_replaces_exactly_one
    (repos : List Repository) (repoId filePath newContent : String)
    (i j : Nat) (hi : i < repos.length)
    (hid : (repos.get ⟨i, hi⟩).id = repoId)
    (hidU : ∀ k (hk : k < repos.length), (repos.get ⟨k, hk⟩).id = repoId → k = i)
    (hj : j < (repos.get ⟨i, hi⟩).files.length)
    (hpath : ((repos.get ⟨i, hi⟩).files.get ⟨j, hj⟩).path = filePath)
    (hpathU : ∀ k (hk : k < (repos.get ⟨i, hi⟩).files.length),
        ((repos.get ⟨i, hi⟩).files.get ⟨k, hk⟩).path = filePath → k = j) :
    updateFileContent repoId filePath newContent repos
      = repos.set i
          { repos.get ⟨i, hi⟩ with
            files := (repos.get ⟨i, hi⟩).files.set j
              { (repos.get ⟨i, hi⟩).files.get ⟨j, hj⟩ with
                content := newContent } } := by
  apply List.ext_get
  · simp [updateFileContent]
  · intro k hk1 hk2
    simp only [updateFileContent, List.get_map, List.get_set]
    by_cases hki : k = i
    · subst hki
      rw [if_pos rfl, if_pos hid]
      congr 1
      apply List.ext_get
      · simp
      · intro m hm1 hm2
        simp only [List.get_map, List.get_set]
        by_cases hmj : m = j
        · subst hmj
          rw [if_pos rfl, if_pos hpath]
        · rw [if_neg (Ne.symm hmj), if_neg]
          intro hcontra
          exact hmj (hpathU m (by simpa using hm1) hcontra)
    · rw [if_neg (Ne.symm hki), if_neg]
      intro hcontra
      exact hki (hidU k (by simpa [updateFileContent] using hk1) hcontra)

/-- C9 witness: a concrete two-file repository; writing `src/a.ts` replaces
only that file's content. -/
theorem updateFileContent_replaces_exactly_one_witness :
    updateFileContent "r1" "src/a.ts" "NEW"
        [{ id := "r1", name := "Repo",
           files := [{ path := "src/a.ts", content := "old" },
                     { path := "src/b.ts", content := "keep" }] }]
      = [{ id := "r1", name := "Repo",
           files := [{ path := "src/a.ts", content := "NEW" },
                     { path := "src/b.ts", content := "keep" }] }] := by
  have h := updateFileContent_replaces_exactly_one
    [{ id := "r1", name := "Repo",
       files := [{ path := "src/a.ts", content := "old" },
                 { path := "src/b.ts", content := "keep" }] }]
    "r1" "src/a.ts" "NEW" 0 0 (by decide) (by decide)
    (by decide) (by decide) (by decide) (by decide)
  simpa using h

/-- C10: calling `updateFileContent` with a repository id that matches no
repository, or a file path not present in any id-matching repository, leaves
the whole repository state unchanged.  The embedded function is total and has
no error channel (the JS original returns `void` and throws nothing), so the
caller gets no error signal: the call is a silent no-op. -/
theorem updateFileContent_noop_when_target_missing
    (repos : List Repository) (repoId filePath newContent : String)
    (h : ∀ r ∈ repos, r.id = repoId → ∀ f ∈ r.files, f.path ≠ filePath) :
    updateFileContent repoId filePath newContent repos = repos := by
  unfold updateFileContent
  rw [show repos = repos.map id by simp]
  rw [List.map_map]
  apply List.map_congr_left
  intro r hr
  simp only [Function.comp, id]
  by_cases hid : r.id = repoId
  · rw [if_pos hid]
    have hfiles : r.files.map
        (fun file => if file.path = filePath
          then { file with content := newContent } else file) = r.files := by
      rw [show r.files = r.files.map id by simp, List.map_map]
      apply List.map_congr_left
      intro f hf
      simp only [Function.comp, id]
      rw [if_neg (h r (by simpa using hr) hid f (by simpa using hf))]
    rw [hfiles]
  · rw [if_neg hid]

/-- C10 witness: a write aimed at a non-existent repository id changes
nothing. -/
theorem updateFileContent_noop_when_target_missing_witness :
    updateFileContent "no-such-repo" "src/a.ts" "NEW"
        [{ id := "r1", name := "Repo",
           files := [{ path := "src/a.ts", content := "old" }] }]
      = [{ id := "r1", name := "Repo",
           files := [{ path := "src/a.ts", content := "old" }] }] := by
  exact updateFileContent_noop_when_target_missing _ _ _ _ (by decide)

/-- At `d = 0`, `k = 0`, the forward snake of `diffLines` run on two equal
line lists walks the main diagonal to its end. -/
theorem snakeLoop_self (l : List String) :
    ∀ (m : Nat) (a : Int), 0 ≤ a → a + m = l.length →
      snakeLoop (m + 1) l l l.length l.length a a
        = ((l.length : Int), (l.length : Int)) := by
  intro m
  induction m with
  | zero =>
    intro a ha hm
    rw [snakeLoop, if_neg]
    · have : a = (l.length : Int) := by omega
      rw [this]
    · rintro ⟨h1, -⟩; omega
  | succ n ih =>
    intro a ha hm
    rw [snakeLoop, if_pos ⟨by omega, by omega, rfl⟩]
    exact ih (a + 1) (by omega) (by omega)

/-- Walking the backtracking snake down the main diagonal unshifts every line
as an unchanged entry, in source order. -/
theorem btSnake_self (l : List String) :
    ∀ (n : Nat) (res : List DiffEntry), n ≤ l.length →
      btSnake (n + 1) l 0 0 (n : Int) (n : Int) res
        = (0, 0, (l.take n).map (fun s => { value := some s }) ++ res) := by
  intro n
  induction n with
  | zero =>
    intro res _
    rw [btSnake, if_neg]
    · simp
    · rintro ⟨h1, -⟩; omega
  | succ n ih =>
    intro res hn
    rw [btSnake, if_pos ⟨by omega, by omega⟩]
    have hcast : ((n + 1 : Nat) : Int) - 1 = (n : Int) := by push_cast; ring
    rw [hcast]
    have hlt : n < l.length := by omega
    have hline : jline l (some (n : Int)) = some (l.get ⟨n, hlt⟩) := by
      simp [jline, List.get?_eq_get hlt]
    rw [hline, ih _ (by omega)]
    have htake : l.take (n + 1) = l.take n ++ [l.get ⟨n, hlt⟩] := by
      rw [List.take_succ, List.getElem?_eq_getElem hlt]
      simp
    rw [htake, List.map_append, List.append_assoc]
    simp

/-- The forward pass visits only the diagonal `k = 0` at `d = 0`. -/
theorem kList_zero : kList 0 = [0] := by decide

/-- C5: for every string `A`, `diffLines(A, A)` is exactly the lines of `A`
each tagged unchanged (`added = false`, `removed = false` on every entry) —
the diff of identical inputs contains no added and no removed entry. -/
theorem diffLines_identity_all_unchanged (A : String) :
    diffLines A A = (splitNl A).map (fun s => { value := some s }) := by
  set l := splitNl A with hl
  set L : Int := (l.length : Int) with hLdef
  have hsnake : snakeJ l l L L (some 0) (some 0) = (some L, some L) := by
    simp only [snakeJ]
    have hfu : (L - 0).toNat = l.length := by omega
    rw [hfu, snakeLoop_self l l.length 0 (by omega) (by omega)]
  have hfx : forwardX (initV (L + L)) (L + L) 0 0 = some 0 := by
    simp only [forwardX, initV]
    rw [if_pos (Or.inl (by omega))]
    rw [if_pos (by omega : L + L + 0 + 1 = L + L + 1)]
  have hk : kLoop l l L L (L + L) 0 (initV (L + L)) [0] (initV (L + L))
      = Sum.inr (jwrite (initV (L + L)) (L + L + 0) (some L)) := by
    simp only [kLoop]
    rw [hfx]
    have hsub : jsub (some (0 : Int)) (some 0) = some 0 := by simp [jsub]
    rw [hsub, hsnake]
    simp [jgeI]
  have hd : dLoop l l L L (L + L) ((L + L).toNat + 1) 0 (initV (L + L)) []
      = some (0, [jwrite (initV (L + L)) (L + L + 0) (some L)], initV (L + L)) := by
    simp only [dLoop, kList_zero]
    rw [hk]
    rfl
  set W : JArr := jwrite (initV (L + L)) (L + L + 0) (some L) with hW
  have hbs : btSnake (L.toNat + 1) l 0 0 L L []
      = (0, 0, l.map (fun s => { value := some s })) := by
    have hfu : L.toNat = l.length := by omega
    rw [hfu, hLdef, btSnake_self l l.length [] (le_refl _)]
    simp
  have hbtstep : btStep l l (L + L) 0 [W] (initV (L + L)) 0 (some L) (some L) []
      = (some 0, some 0, l.map (fun s => { value := some s })) := by
    have hksub : jsub (some L) (some L) = some 0 := by simp [jsub]
    simp [btStep, hksub, jsub, jread, initV, jlt, neg_zero, btSnakeJ, hbs]
  simp only [diffLines, ← hl, ← hLdef]
  rw [hd]
  simp [btLoop, hbtstep]

/-- C4 (code bug): evaluated at original `"a\nb"`, modified `"a"`,
`diffLines` returns `[unchanged "b", added "a"]` — the original line `"a"`
appears only as an added entry, the line `"b"` that should be removed is
reported unchanged, and neither round-trip reconstruction holds: the
not-removed entries do not spell the modified text and the not-added entries
do not spell the original text. -/
theorem diffLines_roundTrip_fails_on_concrete_input :
    diffLines "a\nb" "a"
      = [{ value := some "b" }, { value := some "a", added := true }]
    ∧ ((diffLines "a\nb" "a").filter (fun e => e.removed = false)).map DiffEntry.value
        ≠ (splitNl "a").map some
    ∧ ((diffLines "a\nb" "a").filter (fun e => e.added = false)).map DiffEntry.value
        ≠ (splitNl "a\nb").map some := by
  refine ⟨?_, ?_, ?_⟩ <;> decide

/-- C1: for every model response text on which the action-parse pipeline of
`runAiAgent` fails (no brace-delimited span, invalid JSON, or no string
`action` field — e.g. plain prose), the flow produces the parse-error
`finish` action whose user-visible message quotes the raw model text
verbatim between the fixed error texts, and executing that action leaves
every file of the repository untouched. -/
theorem parse_failure_reports_raw_text_and_mutates_nothing
    (raw : String) (h : agentActionFromText raw = none) (files : List CodeFile) :
    handleModelText raw = finishParseErrAction raw
    ∧ (handleModelText raw).message = some (parseErrHead ++ raw ++ parseErrTail)
    ∧ (execAgentAction (handleModelText raw) files).1 = files := by
  have h1 : handleModelText raw = finishParseErrAction raw := by
    simp [handleModelText, h]
  refine ⟨h1, ?_, ?_⟩
  · rw [h1]; rfl
  · rw [h1]; simp [execAgentAction, finishParseErrAction]

/-- C1 witness: the concrete prose response of the scenario (spelled without
an apostrophe) parses to no action; the turn reports the raw text and leaves
the one-file repository unchanged. -/
theorem parse_failure_reports_raw_text_and_mutates_nothing_witness :
    handleModelText "Sure! Here is my plan..."
      = finishParseErrAction "Sure! Here is my plan..."
    ∧ (handleModelText "Sure! Here is my plan...").message
        = some (parseErrHead ++ "Sure! Here is my plan..." ++ parseErrTail)
    ∧ (execAgentAction (handleModelText "Sure! Here is my plan...")
        [{ path := "src/a.ts", content := "x" }]).1
        = [{ path := "src/a.ts", content := "x" }] :=
  parse_failure_reports_raw_text_and_mutates_nothing "Sure! Here is my plan..."
    (by decide) [{ path := "src/a.ts", content := "x" }]

/-- A `readFile` action never mutates the file list, found or not. -/
theorem execAgentAction_readFile_no_mutation (p : String) (files : List CodeFile) :
    (execAgentAction { action := "readFile", path := some p } files).1 = files := by
  simp only [execAgentAction]
  split
  · split <;> rfl
  all_goals simp_all

/-- Running the modelled loop against an always-`readFile` model consumes the
whole budget: each turn executes the read (no mutation), appends the
observation, and recurses; fuel exhaustion yields the turn-cap error. -/
theorem runAgentLoop_readFile_exhausts (p : String) (files : List CodeFile) :
    ∀ (remaining : Nat) (history : List String) (used : Nat),
      runAgentLoop (fun _ => { action := "readFile", path := some p })
          remaining files history used
        = (LoopOutcome.errorOut tooManyStepsMsg, used + remaining, files) := by
  intro remaining
  induction remaining with
  | zero => intro history used; simp [runAgentLoop]
  | succ n ih =>
    intro history used
    have hexec := execAgentAction_readFile_no_mutation p files
    rw [runAgentLoop]
    rw [if_neg (show ¬(({ action := "readFile", path := some p } :
          AgentActionObj).action = "finish") by simp)]
    rw [if_pos (Or.inl (show ({ action := "readFile", path := some p } :
          AgentActionObj).action = "readFile" from rfl))]
    rw [hexec, ih]
    have harith : used + 1 + n = used + (n + 1) := by omega
    rw [harith]

/-- C2 (spec-modelled): for a model that on every turn answers with a
`readFile` of a known path, the modelled loop driver terminates after
exactly `maxTurns` iterations in the ERROR outcome with the
"took too many steps" message, with the files unchanged; the structural
recursion cannot iterate indefinitely. -/
theorem loop_turn_cap_exact (files : List CodeFile) (p : String)
    (h : p ∈ files.map CodeFile.path) (maxTurns : Nat) (history : List String) :
    runAgentLoop (fun _ => { action := "readFile", path := some p })
        maxTurns files history 0
      = (LoopOutcome.errorOut tooManyStepsMsg, maxTurns, files) := by
  simpa using runAgentLoop_readFile_exhausts p files maxTurns history 0

/-- C2 witness: with the design turn cap of 10 and a concrete one-file
repository, the loop stops in the ERROR outcome after exactly 10 turns. -/
theorem loop_turn_cap_exact_witness :
    "src/a.ts" ∈ ([{ path := "src/a.ts", content := "x" }] : List CodeFile).map CodeFile.path
    ∧ runAgentLoop (fun _ => { action := "readFile", path := some "src/a.ts" })
        designMaxTurns [{ path := "src/a.ts", content := "x" }] [] 0
      = (LoopOutcome.errorOut tooManyStepsMsg, designMaxTurns,
         [{ path := "src/a.ts", content := "x" }]) :=
  ⟨by decide,
   loop_turn_cap_exact [{ path := "src/a.ts", content := "x" }] "src/a.ts"
     (by decide) designMaxTurns []⟩

/-- C3 counterexample: in the dispatch of `runAiAgent` (`unnamed/part_001`),
a `writeFile` action whose path `"./nope.ts"` normalizes to `"nope.ts"`,
absent from the known file list `["src/a.ts"]`, is passed through completely
unchanged — neither normalized nor rejected with an error observation — so
the claim fails for the `writeFile` action kind. -/
theorem dispatch_writeFile_skips_checks :
    dispatchAgentAction ["src/a.ts"]
        { action := "writeFile", path := some "./nope.ts", content := some "x" }
      = Except.ok { action := "writeFile", path := some "./nope.ts", content := some "x" } := by
  rfl

/-- The self-equality search of the dispatch
(`fileList.find(f => f === normalizedPath)`) returns the path string itself
whenever it is in the list. -/
theorem find?_eq_self_of_mem (fl : List String) (np : String) (h : np ∈ fl) :
    fl.find? (fun f => f = np) = some np := by
  induction fl with
  | nil => exact absurd h (List.not_mem_nil np)
  | cons x xs ih =>
    by_cases hx : x = np
    · subst hx
      simp [List.find?_cons]
    · rcases List.mem_cons.mp h with h1 | h2
      · exact absurd h1.symm hx
      · rw [List.find?_cons, decide_eq_false hx]
        exact ih h2

/-- The source's `!file` check is taken exactly when the search misses or
when the normalized path is the falsy empty string. -/
theorem find?_falsy_of_not_found (fl : List String) (np : String)
    (h : np ∉ fl ∨ np = "") :
    jsTruthyStr (fl.find? (fun f => f = np)) = false := by
  rcases h with h | h
  · have hnone : fl.find? (fun f => f = np) = none := by
      rw [List.find?_eq_none]
      intro x hx
      simp only [decide_eq_true_eq]
      intro hxe
      exact h (hxe ▸ hx)
    rw [hnone]
    rfl
  · subst h
    cases hf : fl.find? (fun f => f = "") with
    | none => rfl
    | some f =>
      have hpf := List.find?_some hf
      simp only [decide_eq_true_eq] at hpf
      subst hpf
      rfl

/-- C3 (amended): the dispatch normalizes a leading `./` for `readFile` and
`naturalLanguageWriteFile` actions and rejects with an explicit `finish`
error every normalized path that the source's `!file` check treats as
missing — a path not in the known file list, or the JS-falsy empty path even
when listed; a known non-empty normalized path passes through.  `writeFile`
actions are always forwarded unchanged, with no path normalization and no
known-file check. -/
theorem dispatch_read_nl_normalize_and_reject
    (fl : List String) (p : String) (a : AgentActionObj) :
    (a.action = "readFile" → a.path = some p →
      ((normalizeDotSlash p ∈ fl → normalizeDotSlash p ≠ "" →
          dispatchAgentAction fl a = Except.ok a)
       ∧ (normalizeDotSlash p ∉ fl ∨ normalizeDotSlash p = "" →
           dispatchAgentAction fl a
             = Except.ok (readFileNotFoundAction (normalizeDotSlash p)))))
    ∧ (a.action = "naturalLanguageWriteFile" → a.path = some p →
      ((normalizeDotSlash p ∈ fl → normalizeDotSlash p ≠ "" →
          dispatchAgentAction fl a = Except.ok a)
       ∧ (normalizeDotSlash p ∉ fl ∨ normalizeDotSlash p = "" →
           dispatchAgentAction fl a
             = Except.ok (nlWriteNotFoundAction (normalizeDotSlash p)))))
    ∧ (a.action = "writeFile" → dispatchAgentAction fl a = Except.ok a) := by
  refine ⟨fun ha hp => ⟨fun hm hne => ?_, fun hm => ?_⟩,
          fun ha hp => ⟨fun hm hne => ?_, fun hm => ?_⟩, fun ha => ?_⟩
  · simp [dispatchAgentAction, ha, hp, find?_eq_self_of_mem fl _ hm, jsTruthyStr, hne]
  · simp [dispatchAgentAction, ha, hp, find?_falsy_of_not_found fl _ hm]
  · simp [dispatchAgentAction, ha, hp, find?_eq_self_of_mem fl _ hm, jsTruthyStr, hne]
  · simp [dispatchAgentAction, ha, hp, find?_falsy_of_not_found fl _ hm]
  · simp [dispatchAgentAction, ha]

/-- C3 witness: `./src/a.ts` matches the known file `src/a.ts` and the
`readFile` action passes through; `./x.ts` normalizes to the unknown `x.ts`
and is rejected with the explicit not-found `finish`. -/
theorem dispatch_read_nl_normalize_and_reject_witness :
    dispatchAgentAction ["src/a.ts"] { action := "readFile", path := some "./src/a.ts" }
      = Except.ok { action := "readFile", path := some "./src/a.ts" }
    ∧ dispatchAgentAction ["src/a.ts"] { action := "readFile", path := some "./x.ts" }
      = Except.ok (readFileNotFoundAction (normalizeDotSlash "./x.ts")) :=
  ⟨((dispatch_read_nl_normalize_and_reject ["src/a.ts"] "./src/a.ts"
      { action := "readFile", path := some "./src/a.ts" }).1 rfl rfl).1
      (by decide) (by decide),
   ((dispatch_read_nl_normalize_and_reject ["src/a.ts"] "./x.ts"
      { action := "readFile", path := some "./x.ts" }).1 rfl rfl).2
      (Or.inl (by decide))⟩

/-- C6: with an unset (empty) endpoint URL or model identifier, each of
`runAiAgent`, `analyzeCode` and `applyCodeChanges` returns its configuration
error and issues zero network requests, whatever the network would have
answered. -/
theorem config_missing_fails_before_network
    (url mo : String) (net : FetchOutcome) (h : url = "" ∨ mo = "") :
    ((runAiAgent url mo net).2 = 0
      ∧ ((runAiAgent url mo net).1 = Except.error (wrapAgentErr cfgUrlMsg)
         ∨ (runAiAgent url mo net).1 = Except.error (wrapAgentErr cfgModelMsg)))
    ∧ ((analyzeCode url mo net).2 = 0
      ∧ ((analyzeCode url mo net).1 = Except.error (wrapAgentErr cfgUrlMsg)
         ∨ (analyzeCode url mo net).1 = Except.error (wrapAgentErr cfgModelMsg)))
    ∧ ((applyCodeChanges url mo net).2 = 0
      ∧ ((applyCodeChanges url mo net).1 = Except.error (wrapApplyErr cfgUrlMsg)
         ∨ (applyCodeChanges url mo net).1 = Except.error (wrapApplyErr cfgModelMsg))) := by
  by_cases hu : url = ""
  · subst hu
    refine ⟨⟨?_, Or.inl ?_⟩, ⟨?_, Or.inl ?_⟩, ⟨?_, Or.inl ?_⟩⟩ <;>
      simp [runAiAgent, analyzeCode, applyCodeChanges]
  · have hm : mo = "" := h.resolve_left hu
    subst hm
    refine ⟨⟨?_, Or.inr ?_⟩, ⟨?_, Or.inr ?_⟩, ⟨?_, Or.inr ?_⟩⟩ <;>
      simp [runAiAgent, analyzeCode, applyCodeChanges, hu]

/-- C6 witness: with an empty URL and a set model, all three flows fail with
the URL configuration error and make no network request, even though the
network stub would have rejected. -/
theorem config_missing_fails_before_network_witness :
    ((runAiAgent "" "qwen2:7b" (FetchOutcome.reject "unreachable")).2 = 0
      ∧ ((runAiAgent "" "qwen2:7b" (FetchOutcome.reject "unreachable")).1
            = Except.error (wrapAgentErr cfgUrlMsg)
         ∨ (runAiAgent "" "qwen2:7b" (FetchOutcome.reject "unreachable")).1
            = Except.error (wrapAgentErr cfgModelMsg)))
    ∧ ((analyzeCode "" "qwen2:7b" (FetchOutcome.reject "unreachable")).2 = 0
      ∧ ((analyzeCode "" "qwen2:7b" (FetchOutcome.reject "unreachable")).1
            = Except.error (wrapAgentErr cfgUrlMsg)
         ∨ (analyzeCode "" "qwen2:7b" (FetchOutcome.reject "unreachable")).1
            = Except.error (wrapAgentErr cfgModelMsg)))
    ∧ ((applyCodeChanges "" "qwen2:7b" (FetchOutcome.reject "unreachable")).2 = 0
      ∧ ((applyCodeChanges "" "qwen2:7b" (FetchOutcome.reject "unreachable")).1
            = Except.error (wrapApplyErr cfgUrlMsg)
         ∨ (applyCodeChanges "" "qwen2:7b" (FetchOutcome.reject "unreachable")).1
            = Except.error (wrapApplyErr cfgModelMsg))) :=
  config_missing_fails_before_network "" "qwen2:7b"
    (FetchOutcome.reject "unreachable") (Or.inl rfl)

/-- C7 counterexample: a 200 response whose body carries an empty `response`
field is not propagated as a failure by `runAiAgent`: the flow returns
`Except.ok` with a `finish` action (the parse-error apology), so an empty
model response yields a successful `finish`-action result instead of a typed
failure. -/
theorem empty_response_becomes_ok_finish :
    runAiAgent "http://u" "m" (FetchOutcome.resp true 200 none (some ""))
      = (Except.ok (finishParseErrAction ""), 1) := by
  rfl

/-- C7 (amended): a model-endpoint call that fails (rejected fetch /
non-JSON body, or non-2xx status) is propagated by `runAiAgent` as a typed
failure; an empty response body is not a typed failure but becomes an
`Except.ok` `finish` action carrying the fixed non-empty explanatory message
(never a `finish` with no message). -/
theorem failed_calls_error_and_empty_body_is_explained_finish
    (url mo : String) (hu : ¬url = "") (hm : ¬mo = "") :
    (∀ m, runAiAgent url mo (FetchOutcome.reject m)
        = (Except.error (wrapAgentErr m), 1))
    ∧ (∀ (status : Nat) ef rf,
        runAiAgent url mo (FetchOutcome.resp false status ef rf)
          = (Except.error (wrapAgentErr ("Ollama server responded with status "
              ++ toString status ++ ": " ++ jsErrText ef rf)), 1))
    ∧ (∀ (status : Nat) ef (rf : Option String), rf.getD "" = "" →
        runAiAgent url mo (FetchOutcome.resp true status ef rf)
          = (Except.ok (finishParseErrAction ""), 1)
          ∧ (finishParseErrAction "").message
              = some (parseErrHead ++ "" ++ parseErrTail)
          ∧ parseErrHead ++ "" ++ parseErrTail ≠ "") := by
  refine ⟨fun m => ?_, fun status ef rf => ?_, fun status ef rf hrf => ⟨?_, rfl, ?_⟩⟩
  · simp [runAiAgent, hu, hm]
  · simp [runAiAgent, hu, hm]
  · simp [runAiAgent, hu, hm, hrf]
    rfl
  · decide

/-- C7 witness: with a configured URL and model, a rejected fetch and a 502
both come back as typed failures carrying the underlying message. -/
theorem failed_calls_error_and_empty_body_witness :
    runAiAgent "http://u" "m" (FetchOutcome.reject "fetch failed")
      = (Except.error (wrapAgentErr "fetch failed"), 1)
    ∧ runAiAgent "http://u" "m" (FetchOutcome.resp false 502 (some "bad gateway") none)
      = (Except.error (wrapAgentErr ("Ollama server responded with status "
          ++ toString 502 ++ ": " ++ jsErrText (some "bad gateway") none)), 1) :=
  ⟨(failed_calls_error_and_empty_body_is_explained_finish "http://u" "m"
      (by decide) (by decide)).1 "fetch failed",
   (failed_calls_error_and_empty_body_is_explained_finish "http://u" "m"
      (by decide) (by decide)).2.1 502 (some "bad gateway") none⟩
